import Mathlib

/-!
Verification of the voice-command parsing & validation pipeline of the
sauti-ledger repository: the backend command parser service
(`commandParserService.js`), the recipient validator, the retry wrapper,
the voice route (`routes/voice.js`), and the client-side transfer
confirmation logic (`VoiceTransfer.jsx`, `mneeService.js`).

JavaScript values are embedded as follows: strings are `String`, JS
numbers occurring in the parser (amounts, confidences) are `ℚ`, bigints
holding base-unit token amounts are `Nat`, absent/defaulted JSON fields
are `Option` fields, and fallible operations return tagged results.
-/

namespace SautiLedger

/-! ### Whitespace trimming

JS `String.prototype.trim`, embedded over the character list (drop leading
and trailing whitespace). -/

/-- Drop leading and trailing whitespace of a character list. -/
def trimChars (l : List Char) : List Char :=
  (((l.dropWhile Char.isWhitespace).reverse).dropWhile Char.isWhitespace).reverse

/-- JS `s.trim()`. -/
def jsTrim (s : String) : String :=
  String.mk (trimChars s.data)

/-! ### Recipient validation (commandParserService.js) -/

/-- A hexadecimal digit as accepted by the character class `[a-fA-F0-9]`. -/
def isHexChar (c : Char) : Bool :=
  ('0' ≤ c && c ≤ '9') || ('a' ≤ c && c ≤ 'f') || ('A' ≤ c && c ≤ 'F')

/-- `isValidEthereumAddress` from commandParserService.js: the test
`/^0x[a-fA-F0-9]\x7b40\x7d$/.test(address)` — `0x` followed by exactly 40
hex characters of either case. -/
def isValidEthereumAddress (s : String) : Bool :=
  match s.data with
  | '0' :: 'x' :: rest => rest.length == 40 && rest.all isHexChar
  | _ => false

/-- JS `s.endsWith(suffixStr)`: the reversed suffix is a prefix of the
reversed string. -/
def strEndsWith (s suffixStr : String) : Bool :=
  suffixStr.data.reverse.isPrefixOf s.data.reverse

/-- Result shape of `validateAndResolveRecipient`. -/
structure RecipientValidation where
  valid : Bool
  address : Option String := none
  type : Option String := none
  errCode : Option String := none
  errMessage : Option String := none
  ensName : Option String := none
  deriving DecidableEq, Repr

/-- `validateAndResolveRecipient` from commandParserService.js, on string
inputs (the `typeof recipient !== 'string'` guard cannot fire). -/
def validateAndResolveRecipient (recipient : String) : RecipientValidation :=
  if (jsTrim recipient).length == 0 then
    { valid := false
      errCode := some "INVALID_ADDRESS"
      errMessage := some "Recipient address is required" }
  else
    let trimmedRecipient := jsTrim recipient
    if isValidEthereumAddress trimmedRecipient then
      { valid := true
        address := some trimmedRecipient
        type := some "address" }
    else if strEndsWith trimmedRecipient ".eth" then
      { valid := false
        errCode := some "ENS_NOT_SUPPORTED"
        errMessage := some "ENS name resolution is not yet supported. Please provide a valid Ethereum address (0x...)"
        ensName := some trimmedRecipient }
    else
      { valid := false
        errCode := some "INVALID_ADDRESS_FORMAT"
        errMessage := some "Invalid Ethereum address format. Address must start with 0x followed by 40 hexadecimal characters." }

/-! ### Command parser validation (parseVoiceCommand, commandParserService.js) -/

/-- JavaScript `x || dflt` on an optional string field of the parsed JSON:
an absent field or the empty string falls back to the default. -/
def jsOrStr (v : Option String) (dflt : String) : String :=
  match v with
  | some s => if s == "" then dflt else s
  | none => dflt

/-- The candidate payload as it comes out of `JSON.parse` on the model
response: every field may be absent (or of the wrong type, which the code
treats the same way via its defaults). -/
structure RawCandidate where
  action : Option String := none
  amount : Option ℚ := none
  recipient : Option String := none
  confidence : Option ℚ := none
  reasoning : Option String := none
  deriving DecidableEq

/-- The `error` object attached to a failed parse. -/
structure ParseErrorInfo where
  code : String
  message : String
  details : String
  clarificationNeeded : Bool := false
  deriving DecidableEq, Repr

/-- A successfully parsed command, as returned by `parseVoiceCommand`. -/
structure ParsedCommand where
  action : String
  amount : ℚ
  recipient : String
  confidence : ℚ
  rawText : String
  timestamp : String
  deriving DecidableEq, Repr

/-- Return value of `parseVoiceCommand`: either a `ParsedCommand` or an
error object together with the `rawText`/`timestamp` fields that all error
paths attach. -/
inductive ParseResult where
  | ok (cmd : ParsedCommand)
  | err (e : ParseErrorInfo) (rawText timestamp : String)
  deriving DecidableEq, Repr

/-- The error code of a result, when it is an error. -/
def ParseResult.errCode : ParseResult → Option String
  | .ok _ => none
  | .err e _ _ => some e.code

/-- The error message of a result, when it is an error. -/
def ParseResult.errMessage : ParseResult → Option String
  | .ok _ => none
  | .err e _ _ => some e.message

/-- Whether the result carries no `error` field. -/
def ParseResult.isOk : ParseResult → Bool
  | .ok _ => true
  | .err _ _ _ => false

/-- `clarificationNeeded` of the error, when the result is an error. -/
def ParseResult.clarification : ParseResult → Option Bool
  | .ok _ => none
  | .err e _ _ => some e.clarificationNeeded

/-- The `missingFields` accumulation of `parseVoiceCommand`, applied to the
already-defaulted candidate fields. -/
def missingFieldsOf (action : String) (amount : ℚ) (recipient : String) : List String :=
  (if action == "" || action != "transfer" then ["action (must be \"transfer\")"] else []) ++
  (if amount ≤ 0 then ["amount (must be positive number)"] else []) ++
  (if recipient == "" || !isValidEthereumAddress recipient then ["recipient (must be valid Ethereum address)"] else [])

/-- The validation tail of `parseVoiceCommand` (lines 372-434): field
defaulting, missing-field accumulation, the confidence gate, and the
construction of the final `ParsedCommand`. `text` is the raw input and
`timestamp` the ISO string produced by `new Date().toISOString()`. -/
def validateCandidate (text timestamp : String) (raw : RawCandidate) : ParseResult :=
  let action := jsOrStr raw.action ""
  let amount := raw.amount.getD 0
  let recipient := jsOrStr raw.recipient ""
  let confidence := raw.confidence.getD 0
  let reasoning := jsOrStr raw.reasoning "No reasoning provided"
  let missingFields := missingFieldsOf action amount recipient
  if missingFields ≠ [] then
    .err { code := "MISSING_PARAMETERS"
           message := "Unable to parse command. Missing or invalid: " ++ String.intercalate ", " missingFields
           details := reasoning } text timestamp
  else if confidence < 50 then
    .err { code := "AMBIGUOUS_COMMAND"
           message := "Command is unclear. Please provide more specific details."
           details := reasoning
           clarificationNeeded := true } text timestamp
  else
    .ok { action := action
          amount := amount
          recipient := recipient
          confidence := confidence
          rawText := text
          timestamp := timestamp }

/-- Outcome of the extraction stage of `parseVoiceCommand`, before field
validation: the AI call itself failed (after retries, or the response was
empty), `JSON.parse` failed on the selected text, or a candidate object
was produced. -/
inductive ExtractorOutcome where
  | failedCall (msg : String)
  | unparseable
  | parsed (raw : RawCandidate)
  deriving DecidableEq

/-- `parseVoiceCommand`: the input guard, the error taxonomy of the
extraction stage, and the validation tail. Exceptions from the guard or
from extraction are caught by the surrounding try/catch and returned as a
`PARSING_FAILED` error object. -/
def parseVoiceCommand (text timestamp : String) (outcome : ExtractorOutcome) : ParseResult :=
  if (jsTrim text).length == 0 then
    .err { code := "PARSING_FAILED"
           message := "Failed to parse voice command"
           details := "Command text is required" } text timestamp
  else
    match outcome with
    | .failedCall msg =>
        .err { code := "PARSING_FAILED"
               message := "Failed to parse voice command"
               details := msg } text timestamp
    | .unparseable =>
        .err { code := "PARSING_FAILED"
               message := "Failed to parse voice command"
               details := "Failed to parse AI response as JSON" } text timestamp
    | .parsed raw => validateCandidate text timestamp raw

/-! ### Substring containment (used to state the error-message claims) -/

/-- `pat` is a prefix of `l`. -/
def charsHavePrefix : List Char → List Char → Bool
  | [], _ => true
  | _ :: _, [] => false
  | p :: ps, c :: cs => p == c && charsHavePrefix ps cs

/-- `pat` occurs as a contiguous substring of `l`. -/
def charsContain (pat : List Char) : List Char → Bool
  | [] => charsHavePrefix pat []
  | c :: cs => charsHavePrefix pat (c :: cs) || charsContain pat cs

/-- `s` contains `pat` as a substring. -/
def strContains (s pat : String) : Bool :=
  charsContain pat.data s.data

/-- Message containment on a `ParseResult`: the result is an error whose
message contains `pat`. -/
def ParseResult.msgContains (r : ParseResult) (pat : String) : Bool :=
  match r.errMessage with
  | some m => strContains m pat
  | none => false

/-! ### Decimal digit strings and bigint semantics

`BigInt(digitString)` semantics over character lists: a fold in base 10.
Used by the embeddings of `parseMNEEAmount` and of viem's `formatUnits`. -/

/-- Numeric value of a decimal digit character (`'0'` has code 48). -/
def digitVal (c : Char) : Nat := c.toNat - 48

/-- `BigInt` of a digit string; `BigInt("")` is `0`. -/
def digitsToNat (l : List Char) : Nat :=
  l.foldl (fun acc c => 10 * acc + digitVal c) 0

/-- The decimal digit character of a value `< 10`. -/
def digitChar (d : Nat) : Char := Char.ofNat (48 + d)

/-- Decimal representation of a natural number, accumulator form
(the semantics of JS `value.toString()` for a nonnegative bigint). -/
def natToDigitsAux (n : Nat) (acc : List Char) : List Char :=
  if _h : n < 10 then digitChar n :: acc
  else natToDigitsAux (n / 10) (digitChar (n % 10) :: acc)
  termination_by n
  decreasing_by exact Nat.div_lt_self (by omega) (by omega)

/-- Decimal representation of a natural number. -/
def natToDigits (n : Nat) : List Char := natToDigitsAux n []

/-- Split a character list on a separator, accumulator form
(the semantics of JS `String.prototype.split` with a one-character
separator). -/
def splitOnCharAux (sep : Char) : List Char → List Char → List (List Char)
  | [], cur => [cur.reverse]
  | c :: cs, cur =>
    if c == sep then cur.reverse :: splitOnCharAux sep cs []
    else splitOnCharAux sep cs (c :: cur)

/-- JS `str.split(sep)` for a one-character separator, over `List Char`. -/
def splitOnChar (sep : Char) (l : List Char) : List (List Char) :=
  splitOnCharAux sep l []

/-- Remove the maximal run of trailing `'0'` characters: the
`fraction.replace(/(0+)$/, '')` step of viem's `formatUnits`. -/
def stripTrailingZeros (l : List Char) : List Char :=
  ((l.reverse).dropWhile (· == '0')).reverse

/-! ### MNEE amount conversion (mneeService.js) -/

/-- `parseMNEEAmount` from mneeService.js: human-readable decimal string to
base units. Splits on the decimal point, right-pads/truncates the
fractional part to exactly `decimals` digits
(`fraction.padEnd(decimals, '0').slice(0, decimals)`), concatenates and
takes `BigInt` of the digit string. `if (!amount) return 0n` maps the
empty string to `0`. -/
def parseMNEEAmount (amount : String) (decimals : Nat := 18) : Nat :=
  if amount == "" then 0
  else
    let parts := splitOnChar '.' amount.data
    let whole := parts.headD []
    let fraction := (parts.drop 1).headD []
    let paddedFraction := (fraction ++ List.replicate (decimals - fraction.length) '0').take decimals
    digitsToNat (whole ++ paddedFraction)

/-- Modelled from the spec: `formatMNEEAmount` delegates to viem's
`formatUnits`, an external dependency whose source is not part of the
repository. The spec describes the inverse direction only as "base units →
human string"; this models `formatUnits`' documented behavior: render the
value's decimal digits, left-pad with zeros to at least `decimals` digits,
split into integer and fractional parts `decimals` digits from the right,
strip trailing zeros from the fractional part, and join with a decimal
point when a fractional part remains. -/
def formatUnits (value : Nat) (decimals : Nat) : String :=
  let display := natToDigits value
  let display := List.replicate (decimals - display.length) '0' ++ display
  let integer := display.take (display.length - decimals)
  let fraction := stripTrailingZeros (display.drop (display.length - decimals))
  String.mk ((if integer.isEmpty then ['0'] else integer) ++
             (if fraction.isEmpty then [] else '.' :: fraction))

/-- `formatMNEEAmount` from mneeService.js: base units to human-readable
string. `if (!amount) return '0'` maps the zero bigint to `"0"`. -/
def formatMNEEAmount (amount : Nat) (decimals : Nat := 18) : String :=
  if amount == 0 then "0" else formatUnits amount decimals

/-- Numeric value denoted by a decimal amount string (the spec-side meaning
used to state "numerically equal": integer part plus fractional part
scaled by its length). -/
def decValue (s : String) : ℚ :=
  let parts := splitOnChar '.' s.data
  let whole := parts.headD []
  let fraction := (parts.drop 1).headD []
  (digitsToNat whole : ℚ) + (digitsToNat fraction : ℚ) / (10 : ℚ) ^ fraction.length

/-! ### Retry wrapper (generateWithRetry, commandParserService.js) -/

/-- The retry loop of `generateWithRetry`. `f n` is the outcome of the
`n`-th underlying `model.generateContent` call (1-based). The second
component of the result is the number of calls actually made. `lastErr`
tracks the `lastError` variable; it is overwritten before it is ever read
whenever at least one attempt runs. -/
def runRetry (f : Nat → Except String α) (maxRetries attempt : Nat) (lastErr : String) :
    Except String α × Nat :=
  if _h : attempt ≤ maxRetries then
    match f attempt with
    | .ok r => (.ok r, attempt)
    | .error e => runRetry f maxRetries (attempt + 1) e
  else
    (.error ("AI generation failed after " ++ toString maxRetries ++ " attempts: " ++ lastErr),
     attempt - 1)
  termination_by maxRetries + 1 - attempt
  decreasing_by omega

/-- `generateWithRetry` from commandParserService.js (the backoff sleeps do
not affect the value computed): runs the loop from attempt 1 with
`maxRetries = 3` by default. -/
def generateWithRetry (f : Nat → Except String α) (maxRetries : Nat := 3) :
    Except String α × Nat :=
  runRetry f maxRetries 1 "undefined"

/-! ### JSON text selection (the fence/object cleanup in parseVoiceCommand) -/

/-- Split `l` at the first occurrence of `pat`: returns the part before the
occurrence and the part after it, or `none` when `pat` does not occur. -/
def splitFirstSub (pat : List Char) : List Char → Option (List Char × List Char)
  | [] => if charsHavePrefix pat [] then some ([], []) else none
  | c :: cs =>
    if charsHavePrefix pat (c :: cs) then some ([], (c :: cs).drop pat.length)
    else
      match splitFirstSub pat cs with
      | some (pre, post) => some (c :: pre, post)
      | none => none

/-- The plain-fence regex `/(three backticks)\s*([...]*?)\s*(three backticks)/`:
contents between the first pair of triple-backtick fences, whitespace-stripped. -/
def plainFence (l : List Char) : Option (List Char) :=
  match splitFirstSub "```".data l with
  | some (_, rest) =>
    match splitFirstSub "```".data rest with
    | some (content, _) => some (trimChars content)
    | none => none
  | none => none

/-- The fence cleanup of `parseVoiceCommand`:
`jsonText.match(json fence) || jsonText.match(plain fence)` — first try a
` ```json ` fence, else any triple-backtick fence; `none` when neither
regex matches. -/
def fenceExtract (l : List Char) : Option (List Char) :=
  match splitFirstSub "```json".data l with
  | some (_, rest) =>
    match splitFirstSub "```".data rest with
    | some (content, _) => some (trimChars content)
    | none => plainFence l
  | none => plainFence l

/-- The object regex `/\x7b[...]*\x7d/` (greedy): the span from the first
`'\x7b'` to the last `'\x7d'` of the text, when such a span exists. -/
def braceSpan (l : List Char) : Option (List Char) :=
  let rest := l.dropWhile (· != '{')
  let spanRev := (rest.reverse).dropWhile (· != '}')
  if spanRev.isEmpty then none else some spanRev.reverse

/-- The complete JSON-text selection of `parseVoiceCommand` (lines
350-366): trim the model response, replace it by fenced-block contents
when a fence matches, then replace it by the greedy first-`'\x7b'`-to-
last-`'\x7d'` span when the object regex matches; the result is what is
fed to `JSON.parse`. -/
def selectJsonText (textResponse : String) : String :=
  let jsonText := trimChars textResponse.data
  let jsonText := (fenceExtract jsonText).getD jsonText
  String.mk ((braceSpan jsonText).getD jsonText)

/-- Modelled from the spec: "locate the first top-level `\x7b...\x7d`
object in the text". Depth-counting scan for the matching closer of the
first `'\x7b'`; `none` when no balanced object starts at the first
`'\x7b'`. -/
def firstObjAux : List Char → Nat → List Char → Option (List Char)
  | [], _, _ => none
  | c :: cs, depth, acc =>
    if c = '}' then
      (if depth = 1 then some (c :: acc).reverse else firstObjAux cs (depth - 1) (c :: acc))
    else if c = '{' then firstObjAux cs (depth + 1) (c :: acc)
    else firstObjAux cs depth (c :: acc)

/-- Modelled from the spec: the first top-level `\x7b...\x7d` object of a
text — the substring from the first `'\x7b'` to its matching `'\x7d'`. -/
def firstTopLevelObject (s : String) : Option String :=
  match s.data.dropWhile (· != '{') with
  | [] => none
  | rest => (firstObjAux rest 0 []).map String.mk

/-- A model response containing two top-level JSON objects with text in
between (no code fence). -/
def twoObjectResponse : String := "\x7b\"a\":1\x7d x \x7b\"b\":2\x7d"

/-! ### POST /parse route (routes/voice.js) and the client call
(VoiceTransfer.jsx) -/

/-- The JSON request body of the parse endpoint, restricted to the two
fields at play: the `text` field the route reads and the `command` field
the client sends. -/
structure ParseRequestBody where
  text : Option String := none
  command : Option String := none
  deriving DecidableEq

/-- The HTTP outcome of the route, summarized by status code and the
`error.code` of the JSON body when one is present. -/
structure HttpOutcome where
  status : Nat
  errCode : Option String
  deriving DecidableEq, Repr

/-- The `POST /parse` handler of routes/voice.js. `parserResult` is the
value produced by `parseVoiceCommand` for the given text (only consulted
on the path that reaches it). `!req.body.text` is falsy both for an absent
field and for the empty string. -/
def parseRoute (body : ParseRequestBody) (parserResult : ParseResult) : HttpOutcome :=
  match body.text with
  | none => { status := 400, errCode := some "INVALID_REQUEST" }
  | some t =>
    if t == "" then { status := 400, errCode := some "INVALID_REQUEST" }
    else if (jsTrim t).length == 0 then { status := 400, errCode := some "INVALID_TEXT" }
    else
      match parserResult with
      | .ok _ => { status := 200, errCode := none }
      | .err e _ _ =>
        { status := if e.code == "AMBIGUOUS_COMMAND" then 400
                    else if e.code == "MISSING_PARAMETERS" then 400
                    else 500
          errCode := some e.code }

/-- The request body built by `parseCommand` in VoiceTransfer.jsx:
`JSON.stringify(\x7b command: text \x7d)` — no `text` field. -/
def clientRequestBody (text : String) : ParseRequestBody :=
  { command := some text }

/-- `parseCommand` from VoiceTransfer.jsx: POSTs the client body, throws on
a non-ok status (caught, resolving to `null`, modelled as `none`), and
resolves to the response JSON otherwise. -/
def parseCommandClient (text : String) (parserResult : ParseResult) : Option ParseResult :=
  let res := parseRoute (clientRequestBody text) parserResult
  if 200 ≤ res.status ∧ res.status < 300 then some parserResult else none

/-! ### Client-side balance gate and session state (VoiceTransfer.jsx) -/

/-- The parsed command as consumed by VoiceTransfer.jsx. Its numeric
`amount` is represented by its decimal string — the component only ever
uses `parsedCommand.amount.toString()` before arithmetic. -/
structure FrontendCommand where
  action : String
  amountStr : String
  recipient : String
  deriving DecidableEq

/-- Result of `validateBalance`. -/
structure BalanceValidation where
  isValid : Bool
  message : String
  deriving DecidableEq, Repr

/-- `validateBalance` from VoiceTransfer.jsx (lines 263-276):
`!parsedCommand?.amount` is falsy for a missing command or a zero amount
(modelled by the denoted value of the amount string being `0`), and
`!balanceRaw` is falsy for the zero bigint; otherwise the amount converted
to base units is compared against the balance in base units. -/
def validateBalance (parsedCommand : Option FrontendCommand) (balanceRaw : Nat) :
    BalanceValidation :=
  match parsedCommand with
  | none => { isValid := false, message := "Balance or amount not loaded" }
  | some pc =>
    if decValue pc.amountStr == 0 || balanceRaw == 0 then
      { isValid := false, message := "Balance or amount not loaded" }
    else
      let amountInWei := parseMNEEAmount pc.amountStr
      if balanceRaw < amountInWei then
        { isValid := false
          message := "Insufficient balance (" ++ pc.amountStr ++ " MNEE required)" }
      else { isValid := true, message := "" }

/-- `handleConfirm` from VoiceTransfer.jsx (lines 278-294): returns the
Chain Transfer Executor invocation `transfer(recipient, amountInWei)` it
performs, or `none` when it returns without transferring (no parsed
command, or balance validation failed). -/
def handleConfirm (parsedCommand : Option FrontendCommand) (balanceRaw : Nat) :
    Option (String × Nat) :=
  match parsedCommand with
  | none => none
  | some pc =>
    if (validateBalance (some pc) balanceRaw).isValid then
      some (pc.recipient, parseMNEEAmount pc.amountStr)
    else none

/-- The `disabled` attribute of the Confirm button:
`!balanceValidation.isValid || isTransactionPending || isTransactionConfirming`. -/
def confirmDisabled (parsedCommand : Option FrontendCommand) (balanceRaw : Nat)
    (isTransactionPending isTransactionConfirming : Bool) : Bool :=
  !(validateBalance parsedCommand balanceRaw).isValid ||
    isTransactionPending || isTransactionConfirming

/-- The state held by VoiceTransfer.jsx in its `useState` hooks. -/
structure VTState where
  isRecording : Bool
  isProcessing : Bool
  transcribedText : String
  parsedCommand : Option FrontendCommand
  error : String
  message : String
  showConfirmation : Bool
  deriving DecidableEq

/-- The external events that reach VoiceTransfer.jsx's state. The
component registers handlers for its buttons and effects for the
transaction hooks; it subscribes to no wallet-connectivity source — it
never calls wagmi's `useAccount` — so a wallet-disconnection event is in
its environment but has no handler. -/
inductive VTEvent where
  | reject
  | clearTranscription
  | transactionConfirmedDisplay
  | transactionError (msg : String)
  | walletDisconnected
  deriving DecidableEq

/-- The state updates VoiceTransfer.jsx performs for each event:
`handleReject`, `clearTranscription`, the `isTransactionConfirmed` effect
(its immediate updates), and the transaction-error effect. A
wallet-disconnection event triggers no handler and therefore no state
update. -/
def vtStep (s : VTState) : VTEvent → VTState
  | .reject =>
      { s with showConfirmation := false, parsedCommand := none,
               message := "Transaction cancelled" }
  | .clearTranscription =>
      { s with transcribedText := "", parsedCommand := none,
               showConfirmation := false, message := "", error := "" }
  | .transactionConfirmedDisplay =>
      { s with message := "✅ Transaction confirmed! Refreshing balance...",
               error := "" }
  | .transactionError msg => { s with error := msg, message := "" }
  | .walletDisconnected => s

/-- A concrete mid-flow session: the confirming phase, with a parsed
command displayed and awaiting the user's decision. -/
def confirmingState : VTState :=
  { isRecording := false
    isProcessing := false
    transcribedText := "send 50 MNEE to 0xaaaaaaaaaaaaaaaaaaaaaaaaaaaaaaaaaaaaaaaa"
    parsedCommand := some
      { action := "transfer"
        amountStr := "50"
        recipient := "0xaaaaaaaaaaaaaaaaaaaaaaaaaaaaaaaaaaaaaaaa" }
    error := ""
    message := ""
    showConfirmation := true }

/-! ## Helper lemmas -/

theorem string_eq_empty_of_length_zero (s : String) (h : s.length = 0) : s = "" := by
  cases s with
  | mk data =>
    cases data with
    | nil => rfl
    | cons c cs => simp [String.length] at h

theorem trim_nonempty_guard (s : String) (h : jsTrim s ≠ "") :
    ((jsTrim s).length == 0) = false := by
  rw [beq_eq_false_iff_ne]
  intro hz
  exact h (string_eq_empty_of_length_zero _ hz)

theorem parseVoiceCommand_parsed (text ts : String) (raw : RawCandidate)
    (h : jsTrim text ≠ "") :
    parseVoiceCommand text ts (.parsed raw) = validateCandidate text ts raw := by
  unfold parseVoiceCommand
  rw [trim_nonempty_guard text h]
  rfl

theorem isValidEthereumAddress_empty : isValidEthereumAddress "" = false := rfl

theorem actionCond_iff (a : String) :
    ((a == "") || (a != "transfer")) = true ↔ a ≠ "transfer" := by
  simp only [Bool.or_eq_true, beq_iff_eq, bne_iff_ne]
  constructor
  · rintro (rfl | h)
    · decide
    · exact h
  · exact Or.inr

theorem recipientCond_iff (r : String) :
    ((r == "") || (!isValidEthereumAddress r)) = true ↔
      isValidEthereumAddress r = false := by
  simp only [Bool.or_eq_true, beq_iff_eq, Bool.not_eq_true']
  constructor
  · rintro (rfl | h)
    · exact isValidEthereumAddress_empty
    · exact h
  · exact Or.inr

theorem missingFieldsOf_eq_nil (a : String) (m : ℚ) (r : String) :
    missingFieldsOf a m r = [] ↔
      (a = "transfer" ∧ 0 < m ∧ isValidEthereumAddress r = true) := by
  unfold missingFieldsOf
  rw [List.append_eq_nil, List.append_eq_nil]
  constructor
  · rintro ⟨⟨h1, h2⟩, h3⟩
    refine ⟨?_, ?_, ?_⟩
    · by_contra hne
      rw [if_pos ((actionCond_iff a).mpr hne)] at h1
      exact List.cons_ne_nil _ _ h1
    · by_contra hle
      rw [if_pos (not_lt.mp hle)] at h2
      exact List.cons_ne_nil _ _ h2
    · by_contra hval
      have hf : isValidEthereumAddress r = false := by
        revert hval
        cases isValidEthereumAddress r <;> simp
      rw [if_pos ((recipientCond_iff r).mpr hf)] at h3
      exact List.cons_ne_nil _ _ h3
  · rintro ⟨rfl, h2, h3⟩
    refine ⟨⟨?_, ?_⟩, ?_⟩
    · exact if_neg (fun hcond => (actionCond_iff _).mp hcond rfl)
    · exact if_neg (not_le.mpr h2)
    · refine if_neg (fun hcond => ?_)
      rw [(recipientCond_iff r).mp hcond] at h3
      exact Bool.noConfusion h3

theorem missingFieldsOf_ne_nil (a : String) (m : ℚ) (r : String)
    (h : a ≠ "transfer" ∨ m ≤ 0 ∨ isValidEthereumAddress r = false) :
    missingFieldsOf a m r ≠ [] := by
  intro hnil
  obtain ⟨h1, h2, h3⟩ := (missingFieldsOf_eq_nil a m r).mp hnil
  rcases h with h | h | h
  · exact h h1
  · exact absurd h2 (not_lt.mpr h)
  · rw [h3] at h
    exact Bool.noConfusion h

theorem validateCandidate_missing (text ts : String) (raw : RawCandidate)
    (h : missingFieldsOf (jsOrStr raw.action "") (raw.amount.getD 0)
          (jsOrStr raw.recipient "") ≠ []) :
    validateCandidate text ts raw =
      .err { code := "MISSING_PARAMETERS"
             message := "Unable to parse command. Missing or invalid: " ++
               String.intercalate ", "
                 (missingFieldsOf (jsOrStr raw.action "") (raw.amount.getD 0)
                   (jsOrStr raw.recipient ""))
             details := jsOrStr raw.reasoning "No reasoning provided" } text ts := by
  unfold validateCandidate
  rw [if_pos h]

theorem validateCandidate_ambiguous (text ts : String) (raw : RawCandidate)
    (h : missingFieldsOf (jsOrStr raw.action "") (raw.amount.getD 0)
          (jsOrStr raw.recipient "") = [])
    (hc : raw.confidence.getD 0 < 50) :
    validateCandidate text ts raw =
      .err { code := "AMBIGUOUS_COMMAND"
             message := "Command is unclear. Please provide more specific details."
             details := jsOrStr raw.reasoning "No reasoning provided"
             clarificationNeeded := true } text ts := by
  unfold validateCandidate
  rw [if_neg (by simp [h]), if_pos hc]

theorem validateCandidate_ok (text ts : String) (raw : RawCandidate)
    (h : missingFieldsOf (jsOrStr raw.action "") (raw.amount.getD 0)
          (jsOrStr raw.recipient "") = [])
    (hc : ¬ raw.confidence.getD 0 < 50) :
    validateCandidate text ts raw =
      .ok { action := jsOrStr raw.action ""
            amount := raw.amount.getD 0
            recipient := jsOrStr raw.recipient ""
            confidence := raw.confidence.getD 0
            rawText := text
            timestamp := ts } := by
  unfold validateCandidate
  rw [if_neg (by simp [h]), if_neg hc]

theorem missingFieldsOf_explicit (a : String) (m : ℚ) (r : String) :
    missingFieldsOf a m r =
      (if a ≠ "transfer" then ["action (must be \"transfer\")"] else []) ++
      (if m ≤ 0 then ["amount (must be positive number)"] else []) ++
      (if isValidEthereumAddress r = false then ["recipient (must be valid Ethereum address)"] else []) := by
  unfold missingFieldsOf
  congr 1
  congr 1
  · exact if_congr (actionCond_iff a) rfl rfl
  · exact if_congr (recipientCond_iff r) rfl rfl

/-! ## Claim theorems -/

/-- C4: the recipient validator is exhaustive over string inputs and
preserves casing: empty/whitespace-only input yields `INVALID_ADDRESS`;
a trimmed `0x`+40-hex input of any case is valid with type `"address"`
and the trimmed input itself (casing preserved) as the address; any other
trimmed input ending in `".eth"` yields `ENS_NOT_SUPPORTED`; everything
else yields `INVALID_ADDRESS_FORMAT`. -/
theorem recipient_validator_exhaustive (s : String) :
    (jsTrim s = "" →
      validateAndResolveRecipient s =
        { valid := false, errCode := some "INVALID_ADDRESS",
          errMessage := some "Recipient address is required" }) ∧
    (isValidEthereumAddress (jsTrim s) = true →
      validateAndResolveRecipient s =
        { valid := true, address := some (jsTrim s), type := some "address" }) ∧
    (jsTrim s ≠ "" → isValidEthereumAddress (jsTrim s) = false →
      strEndsWith (jsTrim s) ".eth" = true →
      validateAndResolveRecipient s =
        { valid := false, errCode := some "ENS_NOT_SUPPORTED",
          errMessage := some "ENS name resolution is not yet supported. Please provide a valid Ethereum address (0x...)"
          ensName := some (jsTrim s) }) ∧
    (jsTrim s ≠ "" → isValidEthereumAddress (jsTrim s) = false →
      strEndsWith (jsTrim s) ".eth" = false →
      validateAndResolveRecipient s =
        { valid := false, errCode := some "INVALID_ADDRESS_FORMAT",
          errMessage := some "Invalid Ethereum address format. Address must start with 0x followed by 40 hexadecimal characters." }) := by
  refine ⟨?_, ?_, ?_, ?_⟩
  · intro h
    unfold validateAndResolveRecipient
    rw [if_pos (show ((jsTrim s).length == 0) = true by rw [h]; rfl)]
  · intro h
    have hne : jsTrim s ≠ "" := by
      intro he
      rw [he, isValidEthereumAddress_empty] at h
      exact Bool.noConfusion h
    simp [validateAndResolveRecipient, trim_nonempty_guard s hne, h]
  · intro hne hval heth
    simp [validateAndResolveRecipient, trim_nonempty_guard s hne, hval, heth]
  · intro hne hval heth
    simp [validateAndResolveRecipient, trim_nonempty_guard s hne, hval, heth]

/-- C4 witness: one concrete input per branch — whitespace-only, a
mixed-case address with surrounding whitespace (casing preserved), an ENS
name, and a plain unresolvable name. -/
theorem recipient_validator_exhaustive_witness :
    validateAndResolveRecipient "   " =
      { valid := false, errCode := some "INVALID_ADDRESS",
        errMessage := some "Recipient address is required" } ∧
    validateAndResolveRecipient " 0xAbCdEf0123456789aBcDeF0123456789AbCdEf01 " =
      { valid := true, address := some "0xAbCdEf0123456789aBcDeF0123456789AbCdEf01",
        type := some "address" } ∧
    validateAndResolveRecipient "vitalik.eth" =
      { valid := false, errCode := some "ENS_NOT_SUPPORTED",
        errMessage := some "ENS name resolution is not yet supported. Please provide a valid Ethereum address (0x...)"
        ensName := some "vitalik.eth" } ∧
    validateAndResolveRecipient "bob" =
      { valid := false, errCode := some "INVALID_ADDRESS_FORMAT",
        errMessage := some "Invalid Ethereum address format. Address must start with 0x followed by 40 hexadecimal characters." } :=
  ⟨(recipient_validator_exhaustive "   ").1 (by decide),
   (recipient_validator_exhaustive " 0xAbCdEf0123456789aBcDeF0123456789AbCdEf01 ").2.1
     (by decide),
   (recipient_validator_exhaustive "vitalik.eth").2.2.1 (by decide) (by decide) (by decide),
   (recipient_validator_exhaustive "bob").2.2.2 (by decide) (by decide) (by decide)⟩

/-- C2: for every extractor output with one or more invalid required
fields, `parseVoiceCommand` returns a `MISSING_PARAMETERS` error whose
message names every violated field ("action", "amount", "recipient") —
all violations are accumulated, not just the first. -/
theorem missing_fields_accumulated (text ts : String) (raw : RawCandidate)
    (hne : jsTrim text ≠ "")
    (hviol : jsOrStr raw.action "" ≠ "transfer" ∨ raw.amount.getD 0 ≤ 0 ∨
      isValidEthereumAddress (jsOrStr raw.recipient "") = false) :
    (parseVoiceCommand text ts (.parsed raw)).errCode = some "MISSING_PARAMETERS" ∧
    (jsOrStr raw.action "" ≠ "transfer" →
      (parseVoiceCommand text ts (.parsed raw)).msgContains "action" = true) ∧
    (raw.amount.getD 0 ≤ 0 →
      (parseVoiceCommand text ts (.parsed raw)).msgContains "amount" = true) ∧
    (isValidEthereumAddress (jsOrStr raw.recipient "") = false →
      (parseVoiceCommand text ts (.parsed raw)).msgContains "recipient" = true) := by
  have hm : missingFieldsOf (jsOrStr raw.action "") (raw.amount.getD 0)
      (jsOrStr raw.recipient "") ≠ [] := missingFieldsOf_ne_nil _ _ _ hviol
  have hres := (parseVoiceCommand_parsed text ts raw hne).trans
    (validateCandidate_missing text ts raw hm)
  rw [hres]
  refine ⟨rfl, ?_, ?_, ?_⟩
  · intro hv
    simp only [ParseResult.msgContains, ParseResult.errMessage]
    by_cases h2 : raw.amount.getD 0 ≤ 0 <;>
      by_cases h3 : isValidEthereumAddress (jsOrStr raw.recipient "") = false <;>
      simp only [missingFieldsOf_explicit, hv, h2, h3, if_pos, if_neg, if_true, if_false,
        not_false_iff, ite_true, ite_false, eq_self_iff_true, not_true, not_false_eq_true] <;>
      simp [hv, h2, h3] <;> decide
  · intro hv
    simp only [ParseResult.msgContains, ParseResult.errMessage]
    by_cases h1 : jsOrStr raw.action "" ≠ "transfer" <;>
      by_cases h3 : isValidEthereumAddress (jsOrStr raw.recipient "") = false <;>
      simp [missingFieldsOf_explicit, hv, h1, h3] <;> decide
  · intro hv
    simp only [ParseResult.msgContains, ParseResult.errMessage]
    by_cases h1 : jsOrStr raw.action "" ≠ "transfer" <;>
      by_cases h2 : raw.amount.getD 0 ≤ 0 <;>
      simp [missingFieldsOf_explicit, hv, h1, h2] <;> decide

/-- C2 witness: an output violating all three fields yields
`MISSING_PARAMETERS` with all three names in the message. -/
theorem missing_fields_accumulated_witness :
    (parseVoiceCommand "swap everything" "2025-01-01T00:00:00.000Z"
      (.parsed { action := some "swap", amount := some 0,
                 recipient := some "bob" })).errCode = some "MISSING_PARAMETERS" ∧
    (parseVoiceCommand "swap everything" "2025-01-01T00:00:00.000Z"
      (.parsed { action := some "swap", amount := some 0,
                 recipient := some "bob" })).msgContains "action" = true ∧
    (parseVoiceCommand "swap everything" "2025-01-01T00:00:00.000Z"
      (.parsed { action := some "swap", amount := some 0,
                 recipient := some "bob" })).msgContains "amount" = true ∧
    (parseVoiceCommand "swap everything" "2025-01-01T00:00:00.000Z"
      (.parsed { action := some "swap", amount := some 0,
                 recipient := some "bob" })).msgContains "recipient" = true := by
  have h := missing_fields_accumulated "swap everything" "2025-01-01T00:00:00.000Z"
    { action := some "swap", amount := some 0, recipient := some "bob" }
    (by decide) (Or.inl (by decide))
  exact ⟨h.1, h.2.1 (by decide), h.2.2.1 (by decide), h.2.2.2 (by decide)⟩

/-- C3: the structural-field check strictly precedes the confidence check:
a structurally valid candidate with confidence below 50 yields
`AMBIGUOUS_COMMAND` with `clarificationNeeded`, never
`MISSING_PARAMETERS`; a structurally invalid candidate yields
`MISSING_PARAMETERS` regardless of its confidence. -/
theorem structural_before_confidence :
    (∀ (text ts : String) (raw : RawCandidate),
      jsTrim text ≠ "" →
      jsOrStr raw.action "" = "transfer" →
      0 < raw.amount.getD 0 →
      isValidEthereumAddress (jsOrStr raw.recipient "") = true →
      raw.confidence.getD 0 < 50 →
      (parseVoiceCommand text ts (.parsed raw)).errCode = some "AMBIGUOUS_COMMAND" ∧
      (parseVoiceCommand text ts (.parsed raw)).clarification = some true) ∧
    (∀ (text ts : String) (raw : RawCandidate),
      jsTrim text ≠ "" →
      (jsOrStr raw.action "" ≠ "transfer" ∨ raw.amount.getD 0 ≤ 0 ∨
        isValidEthereumAddress (jsOrStr raw.recipient "") = false) →
      (parseVoiceCommand text ts (.parsed raw)).errCode = some "MISSING_PARAMETERS") := by
  constructor
  · intro text ts raw hne ha hm hr hc
    have hnil := (missingFieldsOf_eq_nil _ _ _).mpr ⟨ha, hm, hr⟩
    rw [(parseVoiceCommand_parsed text ts raw hne).trans
      (validateCandidate_ambiguous text ts raw hnil hc)]
    exact ⟨rfl, rfl⟩
  · intro text ts raw hne hviol
    rw [(parseVoiceCommand_parsed text ts raw hne).trans
      (validateCandidate_missing text ts raw (missingFieldsOf_ne_nil _ _ _ hviol))]
    rfl

/-- C3 witness: a fully valid candidate with confidence 30 is
`AMBIGUOUS_COMMAND`; one with an invalid recipient and confidence 30 is
`MISSING_PARAMETERS`. -/
theorem structural_before_confidence_witness :
    (parseVoiceCommand "send 50 MNEE maybe" "2025-01-01T00:00:00.000Z"
      (.parsed { action := some "transfer", amount := some 50,
                 recipient := some "0xaaaaaaaaaaaaaaaaaaaaaaaaaaaaaaaaaaaaaaaa",
                 confidence := some 30 })).errCode = some "AMBIGUOUS_COMMAND" ∧
    (parseVoiceCommand "send 50 MNEE maybe" "2025-01-01T00:00:00.000Z"
      (.parsed { action := some "transfer", amount := some 50,
                 recipient := some "0xaaaaaaaaaaaaaaaaaaaaaaaaaaaaaaaaaaaaaaaa",
                 confidence := some 30 })).clarification = some true ∧
    (parseVoiceCommand "send 50 MNEE to bob" "2025-01-01T00:00:00.000Z"
      (.parsed { action := some "transfer", amount := some 50,
                 recipient := some "bob",
                 confidence := some 30 })).errCode = some "MISSING_PARAMETERS" := by
  have h1 := structural_before_confidence.1 "send 50 MNEE maybe" "2025-01-01T00:00:00.000Z"
    { action := some "transfer", amount := some 50,
      recipient := some "0xaaaaaaaaaaaaaaaaaaaaaaaaaaaaaaaaaaaaaaaa", confidence := some 30 }
    (by decide) (by decide) (by decide) (by decide) (by decide)
  have h2 := structural_before_confidence.2 "send 50 MNEE to bob" "2025-01-01T00:00:00.000Z"
    { action := some "transfer", amount := some 50, recipient := some "bob",
      confidence := some 30 }
    (by decide) (Or.inr (Or.inr (by decide)))
  exact ⟨h1.1, h1.2, h2⟩

/-- C1: for every extractor output with `action = "transfer"`, a positive
amount, a well-formed `0x`+40-hex recipient, and confidence at least 50,
`parseVoiceCommand` returns a `ParsedCommand` carrying exactly those
values plus the raw text and a timestamp and no error field; and,
conversely, every `ParsedCommand` it ever constructs satisfies
`action = "transfer"`, `amount > 0`, a well-formed recipient, and
`confidence ≥ 50`. -/
theorem parser_completeness_and_invariant :
    (∀ (text ts : String) (raw : RawCandidate),
      jsTrim text ≠ "" →
      jsOrStr raw.action "" = "transfer" →
      0 < raw.amount.getD 0 →
      isValidEthereumAddress (jsOrStr raw.recipient "") = true →
      50 ≤ raw.confidence.getD 0 →
      parseVoiceCommand text ts (.parsed raw) =
        .ok { action := "transfer"
              amount := raw.amount.getD 0
              recipient := jsOrStr raw.recipient ""
              confidence := raw.confidence.getD 0
              rawText := text
              timestamp := ts }) ∧
    (∀ (text ts : String) (outcome : ExtractorOutcome) (cmd : ParsedCommand),
      parseVoiceCommand text ts outcome = .ok cmd →
      cmd.action = "transfer" ∧ 0 < cmd.amount ∧
      isValidEthereumAddress cmd.recipient = true ∧ 50 ≤ cmd.confidence ∧
      cmd.rawText = text ∧ cmd.timestamp = ts) := by
  constructor
  · intro text ts raw hne ha hm hr hc
    rw [parseVoiceCommand_parsed text ts raw hne,
      validateCandidate_ok text ts raw
        ((missingFieldsOf_eq_nil _ _ _).mpr ⟨ha, hm, hr⟩) (not_lt.mpr hc), ha]
  · intro text ts outcome cmd h
    by_cases hg : ((jsTrim text).length == 0) = true
    · unfold parseVoiceCommand at h
      rw [if_pos hg] at h
      exact absurd h (by simp)
    · have hne : jsTrim text ≠ "" := by
        intro he
        rw [he] at hg
        exact hg rfl
      cases outcome with
      | failedCall msg =>
        unfold parseVoiceCommand at h
        rw [if_neg hg] at h
        exact absurd h (by simp)
      | unparseable =>
        unfold parseVoiceCommand at h
        rw [if_neg hg] at h
        exact absurd h (by simp)
      | parsed raw =>
        rw [parseVoiceCommand_parsed text ts raw hne] at h
        by_cases hm : missingFieldsOf (jsOrStr raw.action "") (raw.amount.getD 0)
            (jsOrStr raw.recipient "") = []
        · by_cases hc : raw.confidence.getD 0 < 50
          · rw [validateCandidate_ambiguous text ts raw hm hc] at h
            exact absurd h (by simp)
          · rw [validateCandidate_ok text ts raw hm hc] at h
            obtain ⟨h1, h2, h3⟩ := (missingFieldsOf_eq_nil _ _ _).mp hm
            injection h with h'
            subst h'
            exact ⟨h1, h2, h3, not_lt.mp hc, rfl, rfl⟩
        · rw [validateCandidate_missing text ts raw hm] at h
          exact absurd h (by simp)

/-- C1 witness: a concrete well-formed extractor output parses to exactly
the expected `ParsedCommand`. -/
theorem parser_completeness_and_invariant_witness :
    parseVoiceCommand "send 50 MNEE to 0xaaaaaaaaaaaaaaaaaaaaaaaaaaaaaaaaaaaaaaaa"
        "2025-01-01T00:00:00.000Z"
        (.parsed { action := some "transfer"
                   amount := some 50
                   recipient := some "0xaaaaaaaaaaaaaaaaaaaaaaaaaaaaaaaaaaaaaaaa"
                   confidence := some 95
                   reasoning := some "clear transfer command" }) =
      .ok { action := "transfer"
            amount := 50
            recipient := "0xaaaaaaaaaaaaaaaaaaaaaaaaaaaaaaaaaaaaaaaa"
            confidence := 95
            rawText := "send 50 MNEE to 0xaaaaaaaaaaaaaaaaaaaaaaaaaaaaaaaaaaaaaaaa"
            timestamp := "2025-01-01T00:00:00.000Z" } :=
  parser_completeness_and_invariant.1 _ _ _ (by decide) (by decide) (by decide)
    (by decide) (by decide)

theorem runRetry_ok (f : Nat → Except String α) (m a : Nat) (le : String)
    (r : α) (h : a ≤ m) (hf : f a = .ok r) :
    runRetry f m a le = (.ok r, a) := by
  rw [runRetry, dif_pos h, hf]

theorem runRetry_err (f : Nat → Except String α) (m a : Nat) (le : String)
    (e : String) (h : a ≤ m) (hf : f a = .error e) :
    runRetry f m a le = runRetry f m (a + 1) e := by
  rw [runRetry, dif_pos h, hf]

theorem runRetry_stop (f : Nat → Except String α) (m a : Nat) (le : String)
    (h : ¬ a ≤ m) :
    runRetry f m a le =
      (.error ("AI generation failed after " ++ toString m ++ " attempts: " ++ le),
       a - 1) := by
  rw [runRetry, dif_neg h]

/-- C7: `generateWithRetry` invokes the underlying generation call at most
3 times; if an attempt among the first 3 succeeds it returns that
attempt's response and makes no further calls; if all 3 fail it fails with
"AI generation failed after 3 attempts: " followed by the last error's
message. -/
theorem retry_at_most_three :
    (∀ f : Nat → Except String String, (generateWithRetry f).2 ≤ 3) ∧
    (∀ (f : Nat → Except String String) (r : String),
      f 1 = .ok r → generateWithRetry f = (.ok r, 1)) ∧
    (∀ (f : Nat → Except String String) (e1 r : String),
      f 1 = .error e1 → f 2 = .ok r → generateWithRetry f = (.ok r, 2)) ∧
    (∀ (f : Nat → Except String String) (e1 e2 r : String),
      f 1 = .error e1 → f 2 = .error e2 → f 3 = .ok r →
      generateWithRetry f = (.ok r, 3)) ∧
    (∀ (f : Nat → Except String String) (e1 e2 e3 : String),
      f 1 = .error e1 → f 2 = .error e2 → f 3 = .error e3 →
      generateWithRetry f =
        (.error ("AI generation failed after 3 attempts: " ++ e3), 3)) := by
  have hmsg : ("AI generation failed after " ++ toString (3 : Nat) ++ " attempts: ")
      = "AI generation failed after 3 attempts: " := by decide
  have h2 : ∀ (f : Nat → Except String String) (r : String),
      f 1 = .ok r → generateWithRetry f = (.ok r, 1) := by
    intro f r h1
    unfold generateWithRetry
    rw [runRetry_ok f 3 1 _ r (by omega) h1]
  have h3 : ∀ (f : Nat → Except String String) (e1 r : String),
      f 1 = .error e1 → f 2 = .ok r → generateWithRetry f = (.ok r, 2) := by
    intro f e1 r h1 hb
    unfold generateWithRetry
    rw [runRetry_err f 3 1 _ e1 (by omega) h1, show (1 + 1 : Nat) = 2 from rfl,
      runRetry_ok f 3 2 _ r (by omega) hb]
  have h4 : ∀ (f : Nat → Except String String) (e1 e2 r : String),
      f 1 = .error e1 → f 2 = .error e2 → f 3 = .ok r →
      generateWithRetry f = (.ok r, 3) := by
    intro f e1 e2 r h1 hb hc
    unfold generateWithRetry
    rw [runRetry_err f 3 1 _ e1 (by omega) h1, show (1 + 1 : Nat) = 2 from rfl,
      runRetry_err f 3 2 _ e2 (by omega) hb, show (2 + 1 : Nat) = 3 from rfl,
      runRetry_ok f 3 3 _ r (by omega) hc]
  have h5 : ∀ (f : Nat → Except String String) (e1 e2 e3 : String),
      f 1 = .error e1 → f 2 = .error e2 → f 3 = .error e3 →
      generateWithRetry f =
        (.error ("AI generation failed after 3 attempts: " ++ e3), 3) := by
    intro f e1 e2 e3 h1 hb hc
    unfold generateWithRetry
    rw [runRetry_err f 3 1 _ e1 (by omega) h1, show (1 + 1 : Nat) = 2 from rfl,
      runRetry_err f 3 2 _ e2 (by omega) hb, show (2 + 1 : Nat) = 3 from rfl,
      runRetry_err f 3 3 _ e3 (by omega) hc, show (3 + 1 : Nat) = 4 from rfl,
      runRetry_stop f 3 4 _ (by omega), hmsg]
  refine ⟨?_, h2, h3, h4, h5⟩
  intro f
  cases hf1 : f 1 with
  | ok r => rw [h2 f r hf1]; simp
  | error e1 =>
    cases hf2 : f 2 with
    | ok r => rw [h3 f e1 r hf1 hf2]; simp
    | error e2 =>
      cases hf3 : f 3 with
      | ok r => rw [h4 f e1 e2 r hf1 hf2 hf3]
      | error e3 => rw [h5 f e1 e2 e3 hf1 hf2 hf3]

/-- C7 witness: calls that fail twice and succeed on the third attempt
return that response after exactly 3 calls; calls that always fail return
the 3-attempt failure message naming the last error. -/
theorem retry_at_most_three_witness :
    generateWithRetry (fun n => if n = 3 then .ok "answer" else .error ("boom" ++ toString n)) =
      (.ok "answer", 3) ∧
    generateWithRetry (fun n => (.error ("boom" ++ toString n) : Except String String)) =
      (.error ("AI generation failed after 3 attempts: boom3"), 3) :=
  ⟨retry_at_most_three.2.2.2.1
      (fun n => if n = 3 then .ok "answer" else .error ("boom" ++ toString n))
      "boom1" "boom2" "answer" rfl rfl rfl,
   retry_at_most_three.2.2.2.2
      (fun n => (.error ("boom" ++ toString n) : Except String String))
      "boom1" "boom2" "boom3" rfl rfl rfl⟩

/-- C8: whenever the parsed command's amount in base units exceeds the
known balance in base units, `validateBalance` reports invalid, the
Confirm button is disabled, and `handleConfirm` never invokes the Chain
Transfer Executor. The functions are evaluated on the current `balance` /
`parsedCommand` values, so the gate holds at every re-render. -/
theorem insufficient_balance_gate (c : FrontendCommand) (balanceRaw : Nat)
    (isTransactionPending isTransactionConfirming : Bool)
    (hgt : balanceRaw < parseMNEEAmount c.amountStr) :
    (validateBalance (some c) balanceRaw).isValid = false ∧
    handleConfirm (some c) balanceRaw = none ∧
    confirmDisabled (some c) balanceRaw isTransactionPending isTransactionConfirming
      = true := by
  have hv : (validateBalance (some c) balanceRaw).isValid = false := by
    unfold validateBalance
    by_cases h0 : (decValue c.amountStr == 0 || balanceRaw == 0) = true
    · simp [h0]
    · simp [h0, hgt]
  refine ⟨hv, ?_, ?_⟩
  · simp [handleConfirm, hv]
  · simp [confirmDisabled, hv]

/-- C8 witness: balance of 10 tokens (base units), requested amount 50
tokens — validation fails, the button is disabled, no transfer call. -/
theorem insufficient_balance_gate_witness :
    (validateBalance
      (some { action := "transfer", amountStr := "50",
              recipient := "0xaaaaaaaaaaaaaaaaaaaaaaaaaaaaaaaaaaaaaaaa" })
      10000000000000000000).isValid = false ∧
    handleConfirm
      (some { action := "transfer", amountStr := "50",
              recipient := "0xaaaaaaaaaaaaaaaaaaaaaaaaaaaaaaaaaaaaaaaa" })
      10000000000000000000 = none ∧
    confirmDisabled
      (some { action := "transfer", amountStr := "50",
              recipient := "0xaaaaaaaaaaaaaaaaaaaaaaaaaaaaaaaaaaaaaaaa" })
      10000000000000000000 false false = true :=
  insufficient_balance_gate
    { action := "transfer", amountStr := "50",
      recipient := "0xaaaaaaaaaaaaaaaaaaaaaaaaaaaaaaaaaaaaaaaa" }
    10000000000000000000 false false (by decide)

/-- C9: evaluating the mounted component at the failing input — in the
confirming phase, a wallet-disconnection event leaves the session state
completely unchanged (VoiceTransfer.jsx registers no wallet listener), so
the session does not return to idle and `parsedCommand` is not cleared,
contrary to the claim. -/
theorem wallet_disconnect_ignored :
    vtStep confirmingState .walletDisconnected = confirmingState ∧
    (vtStep confirmingState .walletDisconnected).parsedCommand ≠ none ∧
    (vtStep confirmingState .walletDisconnected).showConfirmation = true :=
  ⟨rfl, by decide, rfl⟩

theorem data_mk (l : List Char) : (String.mk l).data = l := rfl

theorem mk_beq_empty_false (l : List Char) (h : l ≠ []) :
    (String.mk l == "") = false := by
  rw [beq_eq_false_iff_ne]
  intro he
  exact h (congrArg String.data he)

theorem digitsToNat_from (n : Nat) (l : List Char) :
    l.foldl (fun acc c => 10 * acc + digitVal c) n =
      n * 10 ^ l.length + digitsToNat l := by
  induction l generalizing n with
  | nil => simp [digitsToNat]
  | cons c cs ih =>
    unfold digitsToNat
    simp only [List.foldl_cons, List.length_cons]
    rw [ih (10 * n + digitVal c), ih (10 * 0 + digitVal c), pow_succ]
    ring

theorem digitsToNat_cons (c : Char) (l : List Char) :
    digitsToNat (c :: l) = digitVal c * 10 ^ l.length + digitsToNat l := by
  unfold digitsToNat
  simp only [List.foldl_cons]
  rw [digitsToNat_from]
  ring_nf
  unfold digitsToNat
  ring

theorem digitsToNat_append (a b : List Char) :
    digitsToNat (a ++ b) = digitsToNat a * 10 ^ b.length + digitsToNat b := by
  unfold digitsToNat
  rw [List.foldl_append, digitsToNat_from]
  rfl

theorem digitsToNat_replicate_zero (k : Nat) :
    digitsToNat (List.replicate k '0') = 0 := by
  induction k with
  | zero => rfl
  | succ k ih =>
    rw [List.replicate_succ, digitsToNat_cons, ih, show digitVal '0' = 0 from rfl]
    ring

theorem digitVal_digitChar (d : Nat) (h : d < 10) : digitVal (digitChar d) = d := by
  interval_cases d <;> decide

theorem digitChar_isDigit (d : Nat) (h : d < 10) : (digitChar d).isDigit = true := by
  interval_cases d <;> decide

theorem isDigit_ne_dot (c : Char) (h : c.isDigit = true) : c ≠ '.' := by
  rintro rfl
  exact absurd h (by decide)

theorem isDigit_ne_brace (c : Char) (h : c.isDigit = true) : c ≠ '{' ∧ c ≠ '}' := by
  constructor <;> rintro rfl <;> exact absurd h (by decide)

theorem digitsToNat_natToDigitsAux : ∀ (n : Nat) (acc : List Char),
    digitsToNat (natToDigitsAux n acc) = n * 10 ^ acc.length + digitsToNat acc := by
  intro n
  induction n using Nat.strong_induction_on with
  | _ n ih =>
    intro acc
    rw [natToDigitsAux]
    by_cases h : n < 10
    · rw [dif_pos h, digitsToNat_cons, digitVal_digitChar _ h]
    · rw [dif_neg h]
      have hdm : 10 * (n / 10) + n % 10 = n := Nat.div_add_mod n 10
      calc digitsToNat (natToDigitsAux (n / 10) (digitChar (n % 10) :: acc))
          = (n / 10) * 10 ^ ((digitChar (n % 10) :: acc).length) +
              digitsToNat (digitChar (n % 10) :: acc) :=
            ih (n / 10) (Nat.div_lt_self (by omega) (by omega)) _
        _ = (n / 10) * (10 ^ acc.length * 10) +
              ((n % 10) * 10 ^ acc.length + digitsToNat acc) := by
            rw [List.length_cons, pow_succ,
              digitsToNat_cons, digitVal_digitChar _ (Nat.mod_lt _ (by omega))]
        _ = (10 * (n / 10) + n % 10) * 10 ^ acc.length + digitsToNat acc := by ring
        _ = n * 10 ^ acc.length + digitsToNat acc := by rw [hdm]

theorem digitsToNat_natToDigits (n : Nat) : digitsToNat (natToDigits n) = n := by
  unfold natToDigits
  rw [digitsToNat_natToDigitsAux]
  simp [digitsToNat]

theorem natToDigitsAux_mem : ∀ (n : Nat) (acc : List Char) (c : Char),
    c ∈ natToDigitsAux n acc → c.isDigit = true ∨ c ∈ acc := by
  intro n
  induction n using Nat.strong_induction_on with
  | _ n ih =>
    intro acc c hc
    rw [natToDigitsAux] at hc
    by_cases h : n < 10
    · rw [dif_pos h] at hc
      rcases List.mem_cons.mp hc with rfl | hmem
      · exact Or.inl (digitChar_isDigit _ h)
      · exact Or.inr hmem
    · rw [dif_neg h] at hc
      rcases ih (n / 10) (Nat.div_lt_self (by omega) (by omega)) _ c hc with hd | hmem
      · exact Or.inl hd
      · rcases List.mem_cons.mp hmem with rfl | hmem'
        · exact Or.inl (digitChar_isDigit _ (Nat.mod_lt _ (by omega)))
        · exact Or.inr hmem'

theorem natToDigits_isDigit (n : Nat) (c : Char) (h : c ∈ natToDigits n) :
    c.isDigit = true := by
  rcases natToDigitsAux_mem n [] c h with hd | hmem
  · exact hd
  · cases hmem

theorem stripTrailingZeros_spec (l : List Char) :
    ∃ k, l = stripTrailingZeros l ++ List.replicate k '0' := by
  unfold stripTrailingZeros
  refine ⟨(l.reverse.takeWhile (· == '0')).length, ?_⟩
  have htake : l.reverse.takeWhile (· == '0') =
      List.replicate (l.reverse.takeWhile (· == '0')).length '0' := by
    apply List.eq_replicate_of_mem
    intro b hb
    have hp := List.mem_takeWhile_imp (p := (· == '0')) (l := l.reverse) (x := b) hb
    exact beq_iff_eq.mp hp
  conv_lhs => rw [← l.reverse_reverse, ← List.takeWhile_append_dropWhile (p := (· == '0'))
    (l := l.reverse)]
  rw [List.reverse_append, htake, List.reverse_replicate]
  simp [List.length_replicate]

theorem mem_stripTrailingZeros (l : List Char) (c : Char)
    (h : c ∈ stripTrailingZeros l) : c ∈ l := by
  obtain ⟨k, hk⟩ := stripTrailingZeros_spec l
  rw [hk]
  exact List.mem_append_left _ h

theorem formatUnits_spec (n d : Nat) :
    ∃ (ic fc : List Char) (k : Nat),
      formatUnits n d = String.mk (ic ++ (if fc.isEmpty then [] else '.' :: fc)) ∧
      ic ≠ [] ∧
      (∀ c ∈ ic, c.isDigit = true) ∧
      (∀ c ∈ fc, c.isDigit = true) ∧
      fc.length + k = d ∧
      n = digitsToNat ic * 10 ^ d + digitsToNat fc * 10 ^ k := by
  set display0 := natToDigits n with hd0
  set display := List.replicate (d - display0.length) '0' ++ display0 with hdisp
  have hlen : display.length = (d - display0.length) + display0.length := by
    simp [hdisp]
  have hged : d ≤ display.length := by omega
  have hdisval : digitsToNat display = n := by
    rw [hdisp, digitsToNat_append, digitsToNat_replicate_zero, hd0, digitsToNat_natToDigits]
    ring
  have hdigits : ∀ c ∈ display, c.isDigit = true := by
    intro c hc
    rw [hdisp] at hc
    rcases List.mem_append.mp hc with h | h
    · rw [List.eq_of_mem_replicate h]
      decide
    · rw [hd0] at h
      exact natToDigits_isDigit n c h
  set integer := display.take (display.length - d) with hint
  set fracD := display.drop (display.length - d) with hfrd
  have hfdlen : fracD.length = d := by
    rw [hfrd, List.length_drop]
    omega
  have hsplitID : integer ++ fracD = display := List.take_append_drop _ _
  have hvalsplit : n = digitsToNat integer * 10 ^ d + digitsToNat fracD := by
    rw [← hdisval, ← hsplitID, digitsToNat_append, hfdlen]
  obtain ⟨k, hstrip⟩ := stripTrailingZeros_spec fracD
  have hklen : (stripTrailingZeros fracD).length + k = d := by
    have hlen2 := congrArg List.length hstrip
    simp only [List.length_append, List.length_replicate] at hlen2
    omega
  have hfval : digitsToNat fracD = digitsToNat (stripTrailingZeros fracD) * 10 ^ k := by
    conv_lhs => rw [hstrip]
    rw [digitsToNat_append, digitsToNat_replicate_zero, List.length_replicate]
    ring
  refine ⟨(if integer.isEmpty then ['0'] else integer), stripTrailingZeros fracD, k,
    ?_, ?_, ?_, ?_, hklen, ?_⟩
  · rfl
  · by_cases hie : integer.isEmpty = true
    · rw [if_pos hie]
      exact List.cons_ne_nil _ _
    · rw [if_neg hie]
      intro hnil
      rw [hnil] at hie
      exact hie rfl
  · intro c hc
    by_cases hie : integer.isEmpty = true
    · rw [if_pos hie] at hc
      rcases List.mem_cons.mp hc with rfl | hmem
      · decide
      · cases hmem
    · rw [if_neg hie] at hc
      exact hdigits c (List.take_subset _ _ hc)
  · intro c hc
    exact hdigits c (List.drop_subset _ _ (mem_stripTrailingZeros _ _ hc))
  · have hicval : digitsToNat (if integer.isEmpty then ['0'] else integer) =
        digitsToNat integer := by
      by_cases hie : integer.isEmpty = true
      · rw [if_pos hie, List.isEmpty_iff.mp hie]
        rfl
      · rw [if_neg hie]
    rw [hicval, ← hfval]
    exact hvalsplit

theorem splitOnCharAux_no_sep (sep : Char) (l cur : List Char)
    (h : ∀ c ∈ l, c ≠ sep) :
    splitOnCharAux sep l cur = [cur.reverse ++ l] := by
  induction l generalizing cur with
  | nil => simp [splitOnCharAux]
  | cons c cs ih =>
    simp only [splitOnCharAux]
    rw [if_neg (fun hc => h c (List.mem_cons_self c cs) (beq_iff_eq.mp hc))]
    rw [ih (c :: cur) (fun c' hc' => h c' (List.mem_cons_of_mem _ hc'))]
    simp [List.reverse_cons, List.append_assoc]

theorem splitOnChar_no_sep (sep : Char) (l : List Char) (h : ∀ c ∈ l, c ≠ sep) :
    splitOnChar sep l = [l] := by
  unfold splitOnChar
  rw [splitOnCharAux_no_sep sep l [] h]
  rfl

theorem splitOnCharAux_sep_append (sep : Char) (a b cur : List Char)
    (h : ∀ c ∈ a, c ≠ sep) :
    splitOnCharAux sep (a ++ sep :: b) cur =
      (cur.reverse ++ a) :: splitOnCharAux sep b [] := by
  induction a generalizing cur with
  | nil => simp [splitOnCharAux]
  | cons c cs ih =>
    simp only [List.cons_append, splitOnCharAux, List.append_eq]
    rw [if_neg (fun hc => h c (List.mem_cons_self c cs) (beq_iff_eq.mp hc))]
    rw [ih (c :: cur) (fun c' hc' => h c' (List.mem_cons_of_mem _ hc'))]
    simp [List.reverse_cons, List.append_assoc]

theorem splitOnChar_sep_append (sep : Char) (a b : List Char)
    (h : ∀ c ∈ a, c ≠ sep) :
    splitOnChar sep (a ++ sep :: b) = a :: splitOnChar sep b := by
  unfold splitOnChar
  rw [splitOnCharAux_sep_append sep a b [] h]
  rfl

/-- The bigint value produced by `parseMNEEAmount` on a formatted string
`ic ++ "." ++ fc` (or just `ic` when `fc` is empty) made of digits. -/
theorem parseMNEEAmount_digits (ic fc : List Char) (d : Nat)
    (hic : ∀ c ∈ ic, c.isDigit = true) (hfc : ∀ c ∈ fc, c.isDigit = true)
    (hicne : ic ≠ []) (hlen : fc.length ≤ d) :
    parseMNEEAmount (String.mk (ic ++ (if fc.isEmpty then [] else '.' :: fc))) d =
      digitsToNat ic * 10 ^ d + digitsToNat fc * 10 ^ (d - fc.length) := by
  have hicdot : ∀ c ∈ ic, c ≠ '.' := fun c hc => isDigit_ne_dot c (hic c hc)
  have hfcdot : ∀ c ∈ fc, c ≠ '.' := fun c hc => isDigit_ne_dot c (hfc c hc)
  by_cases hfce : fc.isEmpty = true
  · have hfcnil : fc = [] := List.isEmpty_iff.mp hfce
    subst hfcnil
    simp only [List.isEmpty_nil, ite_true, List.append_nil]
    unfold parseMNEEAmount
    rw [mk_beq_empty_false _ hicne]
    simp only [Bool.false_eq_true, ite_false, data_mk]
    rw [splitOnChar_no_sep '.' ic hicdot]
    simp only [List.headD_cons, List.drop_succ_cons, List.drop_nil, List.headD_nil,
      List.length_nil, Nat.sub_zero, List.nil_append]
    rw [List.take_replicate, Nat.min_self, digitsToNat_append,
      digitsToNat_replicate_zero, List.length_replicate]
    simp [digitsToNat]
  · have hfcne : fc ≠ [] := fun hnil => hfce (by rw [hnil]; rfl)
    simp only [hfce, ite_false, Bool.false_eq_true]
    unfold parseMNEEAmount
    have hne : ic ++ '.' :: fc ≠ [] := by simp
    rw [mk_beq_empty_false _ hne]
    simp only [Bool.false_eq_true, ite_false, data_mk]
    rw [splitOnChar_sep_append '.' ic fc hicdot, splitOnChar_no_sep '.' fc hfcdot]
    simp only [List.headD_cons, List.drop_succ_cons, List.drop_nil, List.headD_nil,
      List.drop_zero]
    have hplen : (fc ++ List.replicate (d - fc.length) '0').length = d := by
      simp only [List.length_append, List.length_replicate]
      omega
    rw [List.take_of_length_le (le_of_eq hplen), digitsToNat_append, hplen,
      digitsToNat_append, digitsToNat_replicate_zero, List.length_replicate]
    ring

/-- The bigint value produced by `parseMNEEAmount` on a decimal input
`whole ++ "." ++ frac` whose fractional part fits in `decimals` digits. -/
theorem parseMNEEAmount_input (whole frac : List Char) (d : Nat)
    (hw : ∀ c ∈ whole, c.isDigit = true) (hf : ∀ c ∈ frac, c.isDigit = true)
    (hlen : frac.length ≤ d) :
    parseMNEEAmount (String.mk (whole ++ '.' :: frac)) d =
      digitsToNat whole * 10 ^ d + digitsToNat frac * 10 ^ (d - frac.length) := by
  have hwdot : ∀ c ∈ whole, c ≠ '.' := fun c hc => isDigit_ne_dot c (hw c hc)
  have hfdot : ∀ c ∈ frac, c ≠ '.' := fun c hc => isDigit_ne_dot c (hf c hc)
  unfold parseMNEEAmount
  have hne : whole ++ '.' :: frac ≠ [] := by simp
  rw [mk_beq_empty_false _ hne]
  simp only [Bool.false_eq_true, ite_false, data_mk]
  rw [splitOnChar_sep_append '.' whole frac hwdot, splitOnChar_no_sep '.' frac hfdot]
  simp only [List.headD_cons, List.drop_succ_cons, List.drop_zero]
  have hplen : (frac ++ List.replicate (d - frac.length) '0').length = d := by
    simp only [List.length_append, List.length_replicate]
    omega
  rw [List.take_of_length_le (le_of_eq hplen), digitsToNat_append, hplen,
    digitsToNat_append, digitsToNat_replicate_zero, List.length_replicate]
  ring

/-- The rational value denoted by a formatted string `ic ++ "." ++ fc`
(or just `ic` when `fc` is empty). -/
theorem decValue_digits (ic fc : List Char)
    (hicdot : ∀ c ∈ ic, c ≠ '.') (hfcdot : ∀ c ∈ fc, c ≠ '.') :
    decValue (String.mk (ic ++ (if fc.isEmpty then [] else '.' :: fc))) =
      (digitsToNat ic : ℚ) + (digitsToNat fc : ℚ) / (10 : ℚ) ^ fc.length := by
  by_cases hfce : fc.isEmpty = true
  · have hfcnil : fc = [] := List.isEmpty_iff.mp hfce
    subst hfcnil
    simp only [List.isEmpty_nil, ite_true, List.append_nil]
    unfold decValue
    simp only [data_mk]
    rw [splitOnChar_no_sep '.' ic hicdot]
    simp [digitsToNat]
  · simp only [hfce, ite_false, Bool.false_eq_true]
    unfold decValue
    simp only [data_mk]
    rw [splitOnChar_sep_append '.' ic fc hicdot, splitOnChar_no_sep '.' fc hfcdot]
    simp

/-- The rational value denoted by a decimal input `whole ++ "." ++ frac`. -/
theorem decValue_input (whole frac : List Char)
    (hwdot : ∀ c ∈ whole, c ≠ '.') (hfdot : ∀ c ∈ frac, c ≠ '.') :
    decValue (String.mk (whole ++ '.' :: frac)) =
      (digitsToNat whole : ℚ) + (digitsToNat frac : ℚ) / (10 : ℚ) ^ frac.length := by
  unfold decValue
  simp only [data_mk]
  rw [splitOnChar_sep_append '.' whole frac hwdot, splitOnChar_no_sep '.' frac hfdot]
  simp

/-- `formatMNEEAmount` on a nonzero value is `formatUnits`. -/
theorem formatMNEEAmount_ne_zero (n d : Nat) (hn : n ≠ 0) :
    formatMNEEAmount n d = formatUnits n d := by
  unfold formatMNEEAmount
  rw [if_neg (fun hc => hn (beq_iff_eq.mp hc))]

/-- Exact left inverse: re-parsing a formatted base-unit value recovers it. -/
theorem parse_format_exact (n d : Nat) :
    parseMNEEAmount (formatMNEEAmount n d) d = n := by
  by_cases hn : n = 0
  · subst hn
    have h := parseMNEEAmount_digits ['0'] [] d (by decide) (by simp) (by decide)
      (by simp)
    refine h.trans ?_
    have h0 : digitsToNat ['0'] = 0 := by decide
    have h1 : digitsToNat [] = 0 := rfl
    rw [h0, h1]
    ring
  · obtain ⟨ic, fc, k, hfmt, hicne, hicd, hfcd, hklen, hval⟩ := formatUnits_spec n d
    rw [formatMNEEAmount_ne_zero n d hn, hfmt,
      parseMNEEAmount_digits ic fc d hicd hfcd hicne (by omega)]
    have hk : d - fc.length = k := by omega
    rw [hk]
    exact hval.symm

/-- The value denoted by a formatted base-unit amount is exactly
`n / 10 ^ decimals`. -/
theorem decValue_formatMNEEAmount (n d : Nat) :
    decValue (formatMNEEAmount n d) = (n : ℚ) / (10 : ℚ) ^ d := by
  by_cases hn : n = 0
  · subst hn
    have hdv : decValue "0" = 0 := by
      simp only [decValue]
      rw [splitOnChar_no_sep '.' ['0'] (by decide)]
      simp only [List.headD_cons, List.drop_succ_cons, List.drop_nil, List.headD_nil]
      have h0 : digitsToNat ['0'] = 0 := by decide
      have h1 : digitsToNat [] = 0 := rfl
      rw [h0, h1]
      norm_num
    rw [show formatMNEEAmount 0 d = "0" from rfl, hdv]
    simp
  · obtain ⟨ic, fc, k, hfmt, hicne, hicd, hfcd, hklen, hval⟩ := formatUnits_spec n d
    rw [formatMNEEAmount_ne_zero n d hn, hfmt,
      decValue_digits ic fc (fun c hc => isDigit_ne_dot c (hicd c hc))
        (fun c hc => isDigit_ne_dot c (hfcd c hc)),
      hval]
    push_cast
    rw [show ((10 : ℚ)) ^ d = 10 ^ fc.length * 10 ^ k from by rw [← pow_add, hklen]]
    have h1 : ((10 : ℚ)) ^ fc.length ≠ 0 := by positivity
    have h2 : ((10 : ℚ)) ^ k ≠ 0 := by positivity
    field_simp
    ring

/-- C5 counterexample: the round trip is not numerically exact on every
decimal amount string and decimals count — `parseMNEEAmount` truncates
fractional digits beyond `decimals`: with amount `"0.5"` and decimals `0`,
forward conversion gives `0`, which formats back to `"0"`, whose value
differs from the original `0.5`. -/
theorem roundtrip_counterexample :
    parseMNEEAmount "0.5" 0 = 0 ∧
    formatMNEEAmount (parseMNEEAmount "0.5" 0) 0 = "0" ∧
    decValue (formatMNEEAmount (parseMNEEAmount "0.5" 0) 0) ≠ decValue "0.5" := by
  have hp : parseMNEEAmount "0.5" 0 = 0 := by decide
  refine ⟨hp, by rw [hp]; rfl, ?_⟩
  rw [hp, decValue_formatMNEEAmount 0 0]
  have h5 : decValue "0.5" = 1 / 2 := by
    have hd := decValue_input ['0'] ['5'] (by decide) (by decide)
    rw [show decValue "0.5" = decValue (String.mk (['0'] ++ '.' :: ['5'])) from rfl, hd,
      show digitsToNat ['0'] = 0 by decide, show digitsToNat ['5'] = 5 by decide]
    norm_num
  rw [h5]
  norm_num

/-- C5 amended: converting any base-unit integer to a human string and
back is an exact left inverse (exact bigint equality, for every value and
every decimals count); and the human-units round trip preserves the
numeric value whenever the amount string's fractional part has at most
`decimals` digits (the general claim fails because extra fractional
digits are truncated). -/
theorem roundtrip_amended :
    (∀ (n d : Nat), parseMNEEAmount (formatMNEEAmount n d) d = n) ∧
    (∀ (whole frac : List Char) (d : Nat),
      (∀ c ∈ whole, c.isDigit = true) →
      (∀ c ∈ frac, c.isDigit = true) →
      frac.length ≤ d →
      decValue (formatMNEEAmount
        (parseMNEEAmount (String.mk (whole ++ '.' :: frac)) d) d) =
      decValue (String.mk (whole ++ '.' :: frac))) := by
  refine ⟨parse_format_exact, ?_⟩
  intro whole frac d hw hf hlen
  rw [decValue_formatMNEEAmount, parseMNEEAmount_input whole frac d hw hf hlen,
    decValue_input whole frac (fun c hc => isDigit_ne_dot c (hw c hc))
      (fun c hc => isDigit_ne_dot c (hf c hc))]
  push_cast
  rw [show ((10 : ℚ)) ^ d = 10 ^ frac.length * 10 ^ (d - frac.length) from by
    rw [← pow_add]
    congr 1
    omega]
  have h1 : ((10 : ℚ)) ^ frac.length ≠ 0 := by positivity
  have h2 : ((10 : ℚ)) ^ (d - frac.length) ≠ 0 := by positivity
  field_simp
  ring

/-- C5 amended witness: `1500000` base units at 4 decimals round-trips
exactly, and `"1.5"` at 2 decimals round-trips to the same numeric
value. -/
theorem roundtrip_amended_witness :
    parseMNEEAmount (formatMNEEAmount 1500000 4) 4 = 1500000 ∧
    decValue (formatMNEEAmount
      (parseMNEEAmount (String.mk (['1'] ++ '.' :: ['5'])) 2) 2) =
      decValue (String.mk (['1'] ++ '.' :: ['5'])) :=
  ⟨roundtrip_amended.1 1500000 4,
   roundtrip_amended.2 ['1'] ['5'] 2 (by decide) (by decide) (by decide)⟩

theorem dropWhile_append_of_all (p : Char → Bool) (pre l : List Char)
    (h : ∀ c ∈ pre, p c = true) :
    (pre ++ l).dropWhile p = l.dropWhile p := by
  induction pre with
  | nil => rfl
  | cons c cs ih =>
    simp only [List.cons_append, List.dropWhile_cons]
    rw [if_pos (h c (List.mem_cons_self c cs))]
    exact ih (fun c' hc' => h c' (List.mem_cons_of_mem _ hc'))

theorem braceSpan_decomp (pre mid post : List Char)
    (hpre : ∀ c ∈ pre, c ≠ '{') (hpost : ∀ c ∈ post, c ≠ '}') :
    braceSpan (pre ++ '{' :: (mid ++ '}' :: post)) = some ('{' :: (mid ++ ['}'])) := by
  have hdrop1 : (pre ++ '{' :: (mid ++ '}' :: post)).dropWhile (· != '{') =
      '{' :: (mid ++ '}' :: post) := by
    rw [dropWhile_append_of_all _ _ _
      (fun c hc => by simp only [bne_iff_ne, ne_eq, decide_eq_true_eq]; exact hpre c hc)]
    simp [List.dropWhile_cons]
  have hrev : ('{' :: (mid ++ '}' :: post)).reverse =
      post.reverse ++ '}' :: (mid.reverse ++ ['{']) := by
    simp [List.reverse_cons, List.reverse_append, List.append_assoc]
  have hdrop2 : (post.reverse ++ '}' :: (mid.reverse ++ ['{'])).dropWhile (· != '}') =
      '}' :: (mid.reverse ++ ['{']) := by
    rw [dropWhile_append_of_all _ _ _
      (fun c hc => by
        simp only [bne_iff_ne, ne_eq, decide_eq_true_eq]
        exact hpost c (List.mem_reverse.mp hc))]
    simp [List.dropWhile_cons]
  simp only [braceSpan, hdrop1, hrev, hdrop2, List.isEmpty_cons, Bool.false_eq_true,
    if_false, ite_false]
  simp [List.reverse_cons, List.reverse_append]

/-- C6 counterexample: on a response holding two top-level objects, the
first top-level object is `\x7b"a":1\x7d`, but the code's selection (the
greedy object regex) is the whole span from the first `'\x7b'` to the last
`'\x7d'` — the claim's "locates the first top-level object" is false on
this input. -/
theorem jsonSelect_counterexample :
    firstTopLevelObject twoObjectResponse = some "\x7b\"a\":1\x7d" ∧
    selectJsonText twoObjectResponse = "\x7b\"a\":1\x7d x \x7b\"b\":2\x7d" ∧
    selectJsonText twoObjectResponse ≠ "\x7b\"a\":1\x7d" :=
  ⟨by decide, by decide, by decide⟩

/-- C6 amended: the selection is fence-first — when the leftmost
` ```json ` fence matches (conjuncts 1 and 2), or the leftmost plain
triple-backtick fence matches with no json fence present (conjunct 3),
the payload is computed from that fence's whitespace-stripped contents,
and the greedy object regex is applied within those contents: the span
from the contents' first `'\x7b'` to their last `'\x7d'` when one exists
(conjunct 1 and 3), the bare contents otherwise (conjunct 2). With no
fence, the same greedy span is taken over the whole trimmed text
(conjunct 4) — coinciding with the first top-level object exactly when
that object's closing brace is the last `'\x7d'`. Whenever `JSON.parse`
of the selected text fails, `parseVoiceCommand` returns `PARSING_FAILED`
(conjunct 5). -/
theorem jsonSelect_amended :
    (∀ (s : String) (pre0 rest content post0 pre mid post : List Char),
      splitFirstSub "```json".data (trimChars s.data) = some (pre0, rest) →
      splitFirstSub "```".data rest = some (content, post0) →
      trimChars content = pre ++ '{' :: (mid ++ '}' :: post) →
      (∀ c ∈ pre, c ≠ '{') → (∀ c ∈ post, c ≠ '}') →
      selectJsonText s = String.mk ('{' :: (mid ++ ['}']))) ∧
    (∀ (s : String) (pre0 rest content post0 : List Char),
      splitFirstSub "```json".data (trimChars s.data) = some (pre0, rest) →
      splitFirstSub "```".data rest = some (content, post0) →
      braceSpan (trimChars content) = none →
      selectJsonText s = String.mk (trimChars content)) ∧
    (∀ (s : String) (pre1 rest1 content post1 pre mid post : List Char),
      splitFirstSub "```json".data (trimChars s.data) = none →
      splitFirstSub "```".data (trimChars s.data) = some (pre1, rest1) →
      splitFirstSub "```".data rest1 = some (content, post1) →
      trimChars content = pre ++ '{' :: (mid ++ '}' :: post) →
      (∀ c ∈ pre, c ≠ '{') → (∀ c ∈ post, c ≠ '}') →
      selectJsonText s = String.mk ('{' :: (mid ++ ['}']))) ∧
    (∀ (s : String) (pre mid post : List Char),
      splitFirstSub "```json".data (trimChars s.data) = none →
      splitFirstSub "```".data (trimChars s.data) = none →
      trimChars s.data = pre ++ '{' :: (mid ++ '}' :: post) →
      (∀ c ∈ pre, c ≠ '{') → (∀ c ∈ post, c ≠ '}') →
      selectJsonText s = String.mk ('{' :: (mid ++ ['}']))) ∧
    (∀ (text ts : String),
      (parseVoiceCommand text ts .unparseable).errCode = some "PARSING_FAILED") := by
  refine ⟨?_, ?_, ?_, ?_, ?_⟩
  · intro s pre0 rest content post0 pre mid post hjson hclose htrim hpre hpost
    have hf : fenceExtract (trimChars s.data) = some (trimChars content) := by
      simp only [fenceExtract, hjson, hclose]
    simp only [selectJsonText]
    rw [hf, Option.getD_some, htrim, braceSpan_decomp pre mid post hpre hpost]
    rfl
  · intro s pre0 rest content post0 hjson hclose hbs
    have hf : fenceExtract (trimChars s.data) = some (trimChars content) := by
      simp only [fenceExtract, hjson, hclose]
    simp only [selectJsonText]
    rw [hf, Option.getD_some, hbs, Option.getD_none]
  · intro s pre1 rest1 content post1 pre mid post hjson hopen hclose htrim hpre hpost
    have hf : fenceExtract (trimChars s.data) = some (trimChars content) := by
      simp only [fenceExtract, plainFence, hjson, hopen, hclose]
    simp only [selectJsonText]
    rw [hf, Option.getD_some, htrim, braceSpan_decomp pre mid post hpre hpost]
    rfl
  · intro s pre mid post hjson hplain htrim hpre hpost
    have hf : fenceExtract (trimChars s.data) = none := by
      unfold fenceExtract plainFence
      rw [hjson, hplain]
    simp only [selectJsonText]
    rw [hf, Option.getD_none, htrim, braceSpan_decomp pre mid post hpre hpost]
    rfl
  · intro text ts
    by_cases hg : ((jsTrim text).length == 0) = true
    · unfold parseVoiceCommand
      rw [if_pos hg]
      rfl
    · unfold parseVoiceCommand
      rw [if_neg hg]
      rfl

/-- C6 amended witness: a ` ```json ` fenced response selects the object
inside the fence (ignoring the surrounding prose); a fenced response with
no object selects the bare fence contents; a plain-fenced response
selects the object inside that fence; a fence-free response with a single
object surrounded by text selects exactly that object; and an unparseable
response surfaces `PARSING_FAILED`. -/
theorem jsonSelect_amended_witness :
    selectJsonText "reply: ```json \x7b\"a\": 1\x7d ``` thanks" = "\x7b\"a\": 1\x7d" ∧
    selectJsonText "```json hello ```" = "hello" ∧
    selectJsonText "``` \x7b\"b\":2\x7d ``` end" = "\x7b\"b\":2\x7d" ∧
    selectJsonText "give \x7b\"a\":1\x7d now" = "\x7b\"a\":1\x7d" ∧
    (parseVoiceCommand "send tokens" "2025-01-01T00:00:00.000Z"
      .unparseable).errCode = some "PARSING_FAILED" :=
  ⟨jsonSelect_amended.1 "reply: ```json \x7b\"a\": 1\x7d ``` thanks"
      "reply: ".data " \x7b\"a\": 1\x7d ``` thanks".data " \x7b\"a\": 1\x7d ".data
      " thanks".data [] "\"a\": 1".data []
      (by decide) (by decide) (by decide) (by decide) (by decide),
   jsonSelect_amended.2.1 "```json hello ```" [] " hello ```".data " hello ".data []
      (by decide) (by decide) (by decide),
   jsonSelect_amended.2.2.1 "``` \x7b\"b\":2\x7d ``` end"
      [] " \x7b\"b\":2\x7d ``` end".data " \x7b\"b\":2\x7d ".data " end".data
      [] "\"b\":2".data []
      (by decide) (by decide) (by decide) (by decide) (by decide) (by decide),
   jsonSelect_amended.2.2.2.1 "give \x7b\"a\":1\x7d now"
      "give ".data "\"a\":1".data " now".data
      (by decide) (by decide) (by decide) (by decide) (by decide),
   jsonSelect_amended.2.2.2.2 "send tokens" "2025-01-01T00:00:00.000Z"⟩

/-- C10: the client's `parseCommand` sends `\x7b command: text \x7d` while
the route requires a `text` field, so the composition always yields HTTP
400 with error code `INVALID_REQUEST` and `parseCommand` resolves to
`null` for every input. -/
theorem parse_request_shape_mismatch (text : String) (parserResult : ParseResult) :
    parseRoute (clientRequestBody text) parserResult =
      { status := 400, errCode := some "INVALID_REQUEST" } ∧
    parseCommandClient text parserResult = none := by
  constructor
  · rfl
  · simp [parseCommandClient, parseRoute, clientRequestBody]

end SautiLedger
